import Mathlib

/-!
Shallow embedding of the CarBookingService core (in-memory car dealership
inventory and booking service) and verification of its specification.

Datetimes are modelled as integers (`DT`); Python's `datetime` is a totally
ordered type and only order comparisons occur in the code.  Entity
identities are natural numbers; Python's falsiness of `0` and `None` is
modelled explicitly where the source tests truthiness.

Stored records are modelled as the value lists returned by
`InMemoryDatabase.get_all()`; in the Python store the dictionary key always
equals the record's `id` attribute (both `create` paths and `update`
re-establish this), so key lookup coincides with id lookup on the value
list, and distinct stored records carry distinct ids.
-/

namespace CarBooking

/-- Datetimes, modelled as integers (only order comparisons occur). -/
abbrev DT := Int

/-- The error taxonomy of the service: 404 NotFound, 400 Conflict
(duplicate VIN / unavailable / already booked / has bookings),
422 request validation failure, and the store's duplicate-id `ValueError`. -/
inductive Err where
  | notFound
  | conflict
  | validation
  | duplicateKey
deriving DecidableEq, Repr

/-- `CarStatus` enumeration from `app/domain/models.py`. -/
inductive CarStatus where
  | available
  | maintenance
deriving DecidableEq, Repr

/-- A stored `Booking` (`app/domain/models.py`).  Stored bookings always
carry an id (assigned or preset at store insertion). -/
structure Booking where
  id : Nat
  car_id : Nat
  customer_name : String
  customer_email : String
  start_datetime : DT
  end_datetime : DT
deriving DecidableEq, Repr

/-- A stored `Car` (`app/domain/models.py`).  Fields other than `id` are
`Option`s because `update_car` applies `model_copy(update=...)` without
re-validation, so an explicitly-null payload field writes `None` into the
stored record even though the Pydantic model declares the field required. -/
structure Car where
  id : Nat
  brand : Option String
  model : Option String
  year : Option Int
  color : Option String
  daily_price : Option Int
  vin : Option String
  status : Option CarStatus
  dealer_id : Option Nat
deriving DecidableEq, Repr

/-- A stored `Dealer` (`app/domain/models.py`). -/
structure Dealer where
  id : Nat
  name : String
  location : Option String
deriving DecidableEq, Repr

instance {ε α : Type} [DecidableEq ε] [DecidableEq α] :
    DecidableEq (Except ε α) := fun x y =>
  match x, y with
  | .ok a, .ok b => decidable_of_iff (a = b) (by simp)
  | .ok _, .error _ => isFalse (by simp)
  | .error e, .error f => decidable_of_iff (e = f) (by simp)
  | .error _, .ok _ => isFalse (by simp)

/-- Python truthiness of an `Optional[int]`: `None` and `0` are falsy. -/
def truthyNat : Option Nat → Bool
  | none => false
  | some n => n != 0

/-- Python truthiness of an `Optional[str]`: `None` and `""` are falsy. -/
def truthyStr : Option String → Bool
  | none => false
  | some s => !s.isEmpty

/-! ## Booking repository (`app/repositories/booking_repository.py`) -/

/-- `BookingRepository.get_by_car_id`: all bookings whose `car_id` matches. -/
def get_by_car_id (bookings : List Booking) (cid : Nat) : List Booking :=
  bookings.filter (fun b => b.car_id == cid)

/-- `BookingRepository.get_by_datetime_range`: the four-way branch over the
optional `start_datetime` / `end_datetime` filters. -/
def get_by_datetime_range (bookings : List Booking) (s e : Option DT) :
    List Booking :=
  match s, e with
  | none, none => bookings
  | some s, some e =>
      bookings.filter (fun b =>
        decide (b.start_datetime < e) && decide (b.end_datetime > s))
  | some s, none =>
      bookings.filter (fun b => decide (b.start_datetime ≥ s))
  | none, some e =>
      bookings.filter (fun b => decide (b.end_datetime ≤ e))

/-- `BookingRepository.has_conflicting_booking`.  The skip test is the
Python line `if exclude_booking_id and booking.id == exclude_booking_id`,
so an exclude id of `0` (falsy) disables the exclusion. -/
def has_conflicting_booking (bookings : List Booking) (cid : Nat)
    (s e : DT) (exclude : Option Nat) : Bool :=
  (get_by_car_id bookings cid).any (fun b =>
    !(truthyNat exclude && b.id == exclude.getD 0) &&
    !(decide (e ≤ b.start_datetime) || decide (s ≥ b.end_datetime)))

/-- The specification's overlap predicate on half-open intervals:
`[s1,e1)` and `[s2,e2)` overlap iff `s1 < e2 AND s2 < e1`. -/
def overlapSpec (s e bs be : DT) : Prop := s < be ∧ bs < e

instance (s e bs be : DT) : Decidable (overlapSpec s e bs be) := by
  unfold overlapSpec; infer_instance

/-! ## Car repository (`app/repositories/car_repository.py`) -/

/-- `CarRepository.get_by_vin`: linear scan for an exact VIN match.
A stored car whose `vin` was nulled never matches (`None == str` is false). -/
def get_by_vin (cars : List Car) (v : String) : Option Car :=
  cars.find? (fun c => c.vin == some v)

/-- Store-level insertion `self._storage[key] = item` at key `c.id`:
overwrite in place if the key exists, else append (dict semantics). -/
def dictInsertCar (cars : List Car) (c : Car) : List Car :=
  if cars.any (fun x => x.id == c.id) then
    cars.map (fun x => if x.id == c.id then c else x)
  else cars ++ [c]

/-- The car collection together with the store's `_next_id` counter. -/
structure CarState where
  cars : List Car
  nextId : Nat
deriving DecidableEq, Repr

/-- The empty car store at process start. -/
def initCarState : CarState := ⟨[], 1⟩

/-! ## Car API handlers (`app/api/cars.py`) -/

/-- A validated `CarCreate` payload (`app/schemas/car.py`): every field
required, `vin` exactly 17 characters, `dealer_id > 0`. -/
structure CarCreatePayload where
  brand : String
  model : String
  year : Int
  color : String
  daily_price : Int
  vin : String
  status : CarStatus
  dealer_id : Nat
deriving DecidableEq, Repr

/-- Constraints Pydantic enforces on a `CarCreate` payload before the
handler runs (only the ones the verified claims depend on). -/
def CarCreatePayload.Valid (p : CarCreatePayload) : Prop :=
  p.vin.length = 17 ∧ 0 < p.dealer_id

/-- A `CarUpdate` payload (`app/schemas/car.py`).  The outer `Option` is
field presence (`model_dump(exclude_unset=True)`): `none` means the field
was absent from the request, `some v` means it was explicitly supplied
with value `v` — where `v` itself may be `none` (an explicit JSON null). -/
structure CarUpdatePayload where
  brand : Option (Option String) := none
  model : Option (Option String) := none
  year : Option (Option Int) := none
  color : Option (Option String) := none
  daily_price : Option (Option Int) := none
  vin : Option (Option String) := none
  status : Option (Option CarStatus) := none
  dealer_id : Option (Option Nat) := none
deriving DecidableEq, Repr

/-- Constraints Pydantic enforces on non-null supplied values of a
`CarUpdate` payload (explicit nulls pass, absent fields pass). -/
def CarUpdatePayload.Valid (p : CarUpdatePayload) : Prop :=
  (∀ v, p.vin = some (some v) → v.length = 17) ∧
  (∀ d, p.dealer_id = some (some d) → 0 < d)

/-- `existing_car.model_copy(update=update_data)`: supplied fields (outer
`some`) replace the stored value with their inner value — writing `none`
through when the field was an explicit null — absent fields are kept.
No re-validation happens. -/
def applyUpdate (c : Car) (p : CarUpdatePayload) : Car :=
  { c with
    brand := p.brand.getD c.brand
    model := p.model.getD c.model
    year := p.year.getD c.year
    color := p.color.getD c.color
    daily_price := p.daily_price.getD c.daily_price
    vin := p.vin.getD c.vin
    status := p.status.getD c.status
    dealer_id := p.dealer_id.getD c.dealer_id }

/-- `create_car` handler: dealer must exist (404), VIN must not already be
present (400 conflict); then a `Car` with no id is stored, receiving the
next sequential id. -/
def create_car (dealers : List Dealer) (st : CarState)
    (p : CarCreatePayload) : Except Err Car × CarState :=
  if (dealers.find? (fun d => d.id == p.dealer_id)).isNone then
    (.error .notFound, st)
  else if (get_by_vin st.cars p.vin).isSome then
    (.error .conflict, st)
  else
    let car : Car :=
      ⟨st.nextId, some p.brand, some p.model, some p.year, some p.color,
       some p.daily_price, some p.vin, some p.status, some p.dealer_id⟩
    (.ok car, ⟨dictInsertCar st.cars car, st.nextId + 1⟩)

/-- `update_car` handler: 404 if the car is absent; if a truthy new
`dealer_id` differs from the stored one the dealer must exist (404); if a
truthy new `vin` differs from the stored one it must not belong to any car
(400); then only supplied fields are applied and the record is replaced at
its key with `id` preserved. -/
def update_car (dealers : List Dealer) (st : CarState) (cid : Nat)
    (p : CarUpdatePayload) : Except Err Car × CarState :=
  match st.cars.find? (fun c => c.id == cid) with
  | none => (.error .notFound, st)
  | some existing =>
      let dval : Option Nat := p.dealer_id.getD none
      if truthyNat dval && dval != existing.dealer_id &&
          (dealers.find? (fun d => some d.id == dval)).isNone then
        (.error .notFound, st)
      else
        let vval : Option String := p.vin.getD none
        if truthyStr vval && vval != existing.vin &&
            (get_by_vin st.cars (vval.getD "")).isSome then
          (.error .conflict, st)
        else
          let updated := { applyUpdate existing p with id := cid }
          (.ok updated,
           ⟨st.cars.map (fun x => if x.id == cid then updated else x),
            st.nextId⟩)

/-- `delete_car` handler: 404 if absent, 400 conflict if any booking
references the car, else the record is removed.  Bookings are threaded
through unchanged — the handler never calls a booking mutator. -/
def delete_car (st : CarState) (bookings : List Booking) (cid : Nat) :
    Except Err Unit × CarState × List Booking :=
  match st.cars.find? (fun c => c.id == cid) with
  | none => (.error .notFound, st, bookings)
  | some _ =>
      if get_by_car_id bookings cid ≠ [] then
        (.error .conflict, st, bookings)
      else
        (.ok (), ⟨st.cars.filter (fun c => c.id != cid), st.nextId⟩,
         bookings)

/-! ## Booking API handlers (`app/api/bookings.py`) -/

/-- `get_bookings` handler: the `car_id` filter is applied only when the
query parameter is truthy (the Python line is `if car_id:`, so `car_id=0`
behaves as absent); when a date filter is present the date filtering runs
over ALL bookings and, when `car_id` is truthy, is intersected with the
car filter by id membership. -/
def get_bookings (bookings : List Booking) (car_id : Option Nat)
    (s e : Option DT) : List Booking :=
  let base :=
    if truthyNat car_id then get_by_car_id bookings (car_id.getD 0)
    else bookings
  if s.isSome || e.isSome then
    let df := get_by_datetime_range bookings s e
    if truthyNat car_id then
      base.filter (fun b => df.any (fun b2 => b2.id == b.id))
    else df
  else base

/-- `get_available_cars` handler: 400 validation failure when
`end_datetime <= start_datetime`; otherwise every car whose status is
AVAILABLE and that has no conflicting booking, in catalog iteration order.
The handler performs no store mutation. -/
def get_available_cars (cars : List Car) (bookings : List Booking)
    (s e : DT) : Except Err (List Car) :=
  if e ≤ s then .error .validation
  else
    .ok (cars.filter (fun c =>
      c.status == some CarStatus.available &&
      !has_conflicting_booking bookings c.id s e none))

/-- The pattern `^[^@]+@[^@]+\.[^@]+$` from `BookingCreate.customer_email`:
exactly one `@`, a non-empty local part, and a domain containing a dot
that is neither its first nor its last character. -/
def emailOk (s : String) : Bool :=
  let lp := s.data.takeWhile (fun c => c ≠ '@')
  match s.data.dropWhile (fun c => c ≠ '@') with
  | '@' :: domain =>
      !lp.isEmpty && domain.all (fun c => c ≠ '@') &&
      ((domain.drop 1).dropLast.contains '.')
  | _ => false

/-- An unvalidated booking-creation request body. -/
structure BookingRequest where
  car_id : Nat
  customer_name : String
  customer_email : String
  start_datetime : DT
  end_datetime : DT
deriving DecidableEq, Repr

/-- `BookingCreate` schema validation (`app/schemas/booking.py`): field
constraints plus the `validate_datetimes` model validator requiring
`end_datetime > start_datetime`.  FastAPI runs this while parsing the
request body, before the handler executes. -/
def bookingCreateValid (r : BookingRequest) : Bool :=
  0 < r.car_id && !r.customer_name.isEmpty && emailOk r.customer_email &&
  decide (r.start_datetime < r.end_datetime)

/-- `create_booking` endpoint as observed by a client: schema validation
of the request body happens first (422 on failure, before any handler
logic); then the handler checks car existence (404), car status (400),
and booking conflicts (400); on success the booking is stored with the
next sequential id. -/
def create_booking (cars : List Car) (bookings : List Booking)
    (nextId : Nat) (r : BookingRequest) :
    Except Err Booking × List Booking × Nat :=
  if !bookingCreateValid r then (.error .validation, bookings, nextId)
  else
    match cars.find? (fun c => c.id == r.car_id) with
    | none => (.error .notFound, bookings, nextId)
    | some car =>
        if car.status != some CarStatus.available then
          (.error .conflict, bookings, nextId)
        else if has_conflicting_booking bookings r.car_id
            r.start_datetime r.end_datetime none then
          (.error .conflict, bookings, nextId)
        else
          let b : Booking :=
            ⟨nextId, r.car_id, r.customer_name, r.customer_email,
             r.start_datetime, r.end_datetime⟩
          (.ok b, bookings ++ [b], nextId + 1)

/-! ## The generic Entity Store (`app/repositories/database.py`)

`InMemoryDatabase` is generic over items carrying an optional `id`
attribute; it is modelled here over a concrete record type with an
`Option Nat` id and an opaque data field, with the storage dictionary as
an insertion-ordered association list. -/

/-- An item stored in the generic Entity Store. -/
structure EItem where
  id : Option Nat
  data : Nat
deriving DecidableEq, Repr

/-- `InMemoryDatabase`: the `_storage` dict and the `_next_id` counter. -/
structure EStore where
  storage : List (Nat × EItem)
  nextId : Nat
deriving DecidableEq, Repr

/-- A freshly constructed `InMemoryDatabase`. -/
def initEStore : EStore := ⟨[], 1⟩

/-- `self._storage[k] = v`: overwrite in place if the key exists, else
append (Python dict semantics). -/
def dictInsertE (l : List (Nat × EItem)) (k : Nat) (v : EItem) :
    List (Nat × EItem) :=
  if l.any (fun p => p.1 == k) then
    l.map (fun p => if p.1 == k then (k, v) else p)
  else l ++ [(k, v)]

/-- `InMemoryDatabase.create`: an item without id gets `_next_id` (which
is then incremented, with no collision check on this path); an item whose
preset id collides with an existing key raises `ValueError` before any
mutation; a non-colliding preset id is stored as-is without touching the
counter. -/
def EStore.create (st : EStore) (item : EItem) : Except Err EItem × EStore :=
  match item.id with
  | none =>
      let stored : EItem := { item with id := some st.nextId }
      (.ok stored,
       ⟨dictInsertE st.storage st.nextId stored, st.nextId + 1⟩)
  | some i =>
      if st.storage.any (fun p => p.1 == i) then (.error .duplicateKey, st)
      else (.ok item, ⟨dictInsertE st.storage i item, st.nextId⟩)

/-- `InMemoryDatabase.delete`: remove the key if present, report whether
removal occurred; the counter is untouched. -/
def EStore.delete (st : EStore) (k : Nat) : Bool × EStore :=
  if st.storage.any (fun p => p.1 == k) then
    (true, ⟨st.storage.filter (fun p => p.1 != k), st.nextId⟩)
  else (false, st)

/-- An Entity Store operation: create (auto or preset id) or delete. -/
inductive EOp where
  | create (item : EItem)
  | delete (k : Nat)
deriving DecidableEq, Repr

/-- One Entity Store operation applied to the state. -/
def EStore.step (st : EStore) : EOp → EStore
  | .create item => (st.create item).2
  | .delete k => (st.delete k).2

/-- Run a sequence of Entity Store operations. -/
def runE (st : EStore) : List EOp → EStore
  | [] => st
  | op :: ops => runE (st.step op) ops

/-- The identities the store itself assigns along a run: on each create of
an item without a preset id, the current `_next_id` is assigned. -/
def assignedIds (st : EStore) : List EOp → List Nat
  | [] => []
  | EOp.create item :: ops =>
      match item.id with
      | none => st.nextId :: assignedIds (st.step (.create item)) ops
      | some _ => assignedIds (st.step (.create item)) ops
  | EOp.delete k :: ops => assignedIds (st.step (.delete k)) ops

/-! ## Sequences of car operations through the public interface -/

/-- A car operation reaching the handlers through the public interface. -/
inductive CarOp where
  | create (p : CarCreatePayload)
  | update (cid : Nat) (p : CarUpdatePayload)
deriving DecidableEq, Repr

/-- Payload validity of a car operation (enforced by Pydantic before the
handler runs). -/
def CarOp.Valid : CarOp → Prop
  | .create p => p.Valid
  | .update _ p => p.Valid

/-- One car operation applied to the car store. -/
def carStep (dealers : List Dealer) (st : CarState) : CarOp → CarState
  | .create p => (create_car dealers st p).2
  | .update cid p => (update_car dealers st cid p).2

/-- Run a sequence of car operations. -/
def runCarOps (dealers : List Dealer) (st : CarState) :
    List CarOp → CarState
  | [] => st
  | op :: ops => runCarOps dealers (carStep dealers st op) ops

/-- Two cars do not share a VIN value (a nulled VIN is not a VIN). -/
def VinDistinct (a b : Car) : Prop :=
  ∀ v, a.vin = some v → b.vin ≠ some v

/-- Internal well-formedness of the car store: pairwise-distinct ids with
pairwise-distinct VINs, all ids below the `_next_id` counter. -/
def CarInv (st : CarState) : Prop :=
  st.cars.Pairwise (fun a b => a.id ≠ b.id ∧ VinDistinct a b) ∧
  ∀ c ∈ st.cars, c.id < st.nextId

/-! ## Helper lemmas -/

lemma vinDistinct_symm {a b : Car} (h : VinDistinct a b) : VinDistinct b a :=
  fun v hb ha => h v ha hb

lemma has_conflicting_booking_iff (bookings : List Booking) (cid : Nat)
    (s e : DT) (ex : Option Nat) :
    has_conflicting_booking bookings cid s e ex = true ↔
      ∃ b ∈ bookings, b.car_id = cid ∧
        ¬(truthyNat ex = true ∧ b.id = ex.getD 0) ∧
        s < b.end_datetime ∧ b.start_datetime < e := by
  simp only [has_conflicting_booking, get_by_car_id, List.any_eq_true,
    List.mem_filter, Bool.and_eq_true, Bool.not_eq_true',
    Bool.and_eq_false_iff, Bool.or_eq_false_iff, decide_eq_false_iff_not,
    beq_iff_eq, beq_eq_false_iff_ne, not_le, not_lt, ne_eq]
  constructor
  · rintro ⟨b, ⟨hb, hcar⟩, hskip, h1, h2⟩
    refine ⟨b, hb, hcar, ?_, h2, h1⟩
    rintro ⟨ht, hid⟩
    rcases hskip with hf | hne
    · rw [ht] at hf; exact Bool.false_ne_true hf.symm
    · exact hne hid
  · rintro ⟨b, hb, hcar, hskip, h1, h2⟩
    refine ⟨b, ⟨hb, hcar⟩, ?_, h2, h1⟩
    by_cases ht : truthyNat ex = true
    · exact Or.inr (fun hid => hskip ⟨ht, hid⟩)
    · exact Or.inl (by simpa using ht)

lemma has_conflicting_booking_none_iff (bookings : List Booking) (cid : Nat)
    (s e : DT) :
    has_conflicting_booking bookings cid s e none = true ↔
      ∃ b ∈ bookings, b.car_id = cid ∧
        s < b.end_datetime ∧ b.start_datetime < e := by
  rw [has_conflicting_booking_iff]
  simp [truthyNat]

/-! ## Concrete fixtures -/

/-- A stored booking with preset id `0` (storable through the Entity
Store's preset-id create path). -/
def bookingZero : Booking := ⟨0, 1, "Zoe", "zoe@example.com", 0, 10⟩

/-- Booking A = [Jan15, Jan20), days numbered from Jan 1 = 1. -/
def bookA : Booking := ⟨1, 1, "Ann", "ann@example.com", 15, 20⟩

/-- Booking B = [Feb1, Feb5) = day 32 to day 36. -/
def bookB : Booking := ⟨2, 1, "Ben", "ben@example.com", 32, 36⟩

/-- Booking C = [Jan18, Jan22). -/
def bookC : Booking := ⟨3, 1, "Cal", "cal@example.com", 18, 22⟩

/-! ## Claims -/

/-- C1, counterexample: the claim states that a stored booking is skipped
exactly when `b.id = excludeId`; but the code tests Python truthiness of
`excludeId`, so with `excludeId = 0` and a stored booking of id `0` the
booking is NOT skipped: `hasConflict` returns true although no booking
with `b.id ≠ excludeId` overlaps, refuting the claimed iff. -/
theorem C1_counterexample :
    has_conflicting_booking [bookingZero] 1 0 10 (some 0) = true ∧
    ¬ ∃ b ∈ [bookingZero], b.car_id = 1 ∧ b.id ≠ 0 ∧
        (0 : DT) < b.end_datetime ∧ b.start_datetime < 10 := by
  decide

/-- C1 (amended): `hasConflict(car_id, s, e, excludeId)` returns true iff
some stored booking `b` has `b.car_id = car_id`, overlaps `[s, e)` under
the half-open predicate `s < b.end ∧ b.start < e` (so touching intervals
never conflict), and is not skipped — where a booking is skipped only
when `excludeId` is a NONZERO id equal to `b.id` (an `excludeId` of `0`
or `None` disables the exclusion, by Python truthiness).  Every booking
for the car is checked. -/
theorem C1_hasConflict_amended (bookings : List Booking) (cid : Nat)
    (s e : DT) (ex : Option Nat) :
    has_conflicting_booking bookings cid s e ex = true ↔
      ∃ b ∈ bookings, b.car_id = cid ∧
        (∀ x, ex = some x → x ≠ 0 → b.id ≠ x) ∧
        overlapSpec s e b.start_datetime b.end_datetime := by
  rw [has_conflicting_booking_iff]
  constructor
  · rintro ⟨b, hb, hcar, hskip, h1, h2⟩
    refine ⟨b, hb, hcar, ?_, h1, h2⟩
    intro x hx hxz hbid
    exact hskip ⟨by simp [truthyNat, hx, hxz], by simp [hx, hbid]⟩
  · rintro ⟨b, hb, hcar, hskip, h1, h2⟩
    refine ⟨b, hb, hcar, ?_, h1, h2⟩
    rintro ⟨ht, hid⟩
    cases ex with
    | none => simp [truthyNat] at ht
    | some x =>
        have hxz : x ≠ 0 := by simpa [truthyNat] using ht
        exact hskip x rfl hxz (by simpa using hid)

/-- C4: `get_by_datetime_range` is the four-way branch of the claim —
both absent: all bookings; both present: the overlap predicate
`b.start < end ∧ b.end > start`; start only: `b.start ≥ start`; end
only: `b.end ≤ end`; and on A=[Jan15,Jan20), B=[Feb1,Feb5),
C=[Jan18,Jan22) the query [Jan16,Jan21) returns exactly [A, C]. -/
theorem C4_listByRange_branches (bookings : List Booking) :
    get_by_datetime_range bookings none none = bookings ∧
    (∀ s e b, b ∈ get_by_datetime_range bookings (some s) (some e) ↔
        b ∈ bookings ∧ b.start_datetime < e ∧ b.end_datetime > s) ∧
    (∀ s b, b ∈ get_by_datetime_range bookings (some s) none ↔
        b ∈ bookings ∧ b.start_datetime ≥ s) ∧
    (∀ e b, b ∈ get_by_datetime_range bookings none (some e) ↔
        b ∈ bookings ∧ b.end_datetime ≤ e) ∧
    get_by_datetime_range [bookA, bookB, bookC] (some 16) (some 21) =
      [bookA, bookC] := by
  refine ⟨rfl, ?_, ?_, ?_, by decide⟩ <;>
    intros <;> simp [get_by_datetime_range, List.mem_filter, and_assoc]

/-- An AVAILABLE demo car with a 17-character VIN. -/
def carDemo : Car :=
  ⟨1, some "VW", some "Golf", some 2020, some "blue", some 40,
   some "WVWZZZ1JZXW000001", some CarStatus.available, some 1⟩

/-- A MAINTENANCE-status demo car. -/
def carMaint : Car :=
  ⟨2, some "VW", some "Polo", some 2019, some "red", some 30,
   some "WVWZZZ1JZXW000002", some CarStatus.maintenance, some 1⟩

/-- C3: the availability query fails with a validation error when
`end <= start`, otherwise returns exactly the cars whose status is
AVAILABLE and for which no stored booking of that car overlaps `[s, e)`,
as a filter of the catalog (hence in catalog iteration order); a
MAINTENANCE-status car never appears in the result.  The handler never
mutates any store (it is embedded as a pure function of the state). -/
theorem C3_availability (cars : List Car) (bookings : List Booking)
    (s e : DT) :
    (e ≤ s → get_available_cars cars bookings s e = .error .validation) ∧
    (s < e → get_available_cars cars bookings s e =
      .ok (cars.filter (fun c =>
        decide (c.status = some CarStatus.available ∧
          ¬ ∃ b ∈ bookings, b.car_id = c.id ∧
              overlapSpec s e b.start_datetime b.end_datetime)))) ∧
    (∀ l c, get_available_cars cars bookings s e = .ok l → c ∈ l →
      c.status ≠ some CarStatus.maintenance) := by
  refine ⟨fun h => by simp only [get_available_cars, if_pos h], ?_, ?_⟩
  · intro h
    simp only [get_available_cars, if_neg (not_le.mpr h), Except.ok.injEq]
    refine List.filter_congr (fun c _ => ?_)
    rw [Bool.eq_iff_iff]
    simp only [Bool.and_eq_true, beq_iff_eq, Bool.not_eq_true',
      decide_eq_true_eq]
    rw [← Bool.not_eq_true, has_conflicting_booking_none_iff]
    simp [overlapSpec]
  · intro l c hl hc
    by_cases h : e ≤ s
    · simp only [get_available_cars, if_pos h] at hl
      exact absurd hl (by simp)
    · simp only [get_available_cars, if_neg h, Except.ok.injEq] at hl
      subst hl
      rw [List.mem_filter] at hc
      have h2 := hc.2
      simp only [Bool.and_eq_true, beq_iff_eq] at h2
      rw [h2.1]
      simp

/-- C3 witness: `end <= start` yields the validation error; an AVAILABLE
car with an overlapping booking is excluded; a returned car is never in
MAINTENANCE status. -/
theorem C3_availability_witness :
    get_available_cars [carDemo] [] 5 5 = .error .validation ∧
    get_available_cars [carDemo, carMaint] [bookA] 16 18 = .ok [] ∧
    carDemo.status ≠ some CarStatus.maintenance :=
  ⟨(C3_availability [carDemo] [] 5 5).1 (by decide),
   ((C3_availability [carDemo, carMaint] [bookA] 16 18).2.1
     (by decide)).trans (by decide),
   (C3_availability [carDemo] [] 1 2).2.2 [carDemo] carDemo (by decide)
     (by decide)⟩

/-- C5: deleting an absent car fails NotFound; deleting a car with at
least one booking referencing it fails Conflict with both collections
unchanged, with no condition on the bookings' datetimes; deletion
succeeds exactly when the car exists and has zero bookings, removing
only that car and leaving the bookings untouched. -/
theorem C5_delete_car (st : CarState) (bookings : List Booking)
    (cid : Nat) :
    ((¬ ∃ c ∈ st.cars, c.id = cid) →
      delete_car st bookings cid = (.error .notFound, st, bookings)) ∧
    ((∃ c ∈ st.cars, c.id = cid) → (∃ b ∈ bookings, b.car_id = cid) →
      delete_car st bookings cid = (.error .conflict, st, bookings)) ∧
    ((∃ c ∈ st.cars, c.id = cid) → (∀ b ∈ bookings, b.car_id ≠ cid) →
      delete_car st bookings cid =
        (.ok (), ⟨st.cars.filter (fun c => c.id != cid), st.nextId⟩,
         bookings)) := by
  refine ⟨?_, ?_, ?_⟩
  · intro h
    have hf : st.cars.find? (fun c => c.id == cid) = none := by
      rw [List.find?_eq_none]
      intro c hc
      simp only [beq_iff_eq]
      exact fun he => h ⟨c, hc, he⟩
    simp only [delete_car, hf]
  · rintro ⟨c, hc, hcid⟩ ⟨b, hb, hbc⟩
    cases hfind : st.cars.find? (fun c => c.id == cid) with
    | none =>
        rw [List.find?_eq_none] at hfind
        exact absurd (by simpa using hcid) (hfind c hc)
    | some c2 =>
        have hne : get_by_car_id bookings cid ≠ [] :=
          List.ne_nil_of_mem
            (List.mem_filter.mpr ⟨hb, by simp [hbc]⟩)
        simp only [delete_car, hfind, if_pos hne]
  · rintro ⟨c, hc, hcid⟩ hnob
    cases hfind : st.cars.find? (fun c => c.id == cid) with
    | none =>
        rw [List.find?_eq_none] at hfind
        exact absurd (by simpa using hcid) (hfind c hc)
    | some c2 =>
        have hnil : get_by_car_id bookings cid = [] := by
          rw [get_by_car_id, List.filter_eq_nil_iff]
          intro b hb
          simp only [beq_iff_eq]
          exact hnob b hb
        simp only [delete_car, hfind, hnil, ne_eq, not_true_eq_false,
          if_false]

/-- C5 witness: all three branches at concrete inputs. -/
theorem C5_delete_car_witness :
    delete_car ⟨[carDemo], 2⟩ [] 9 = (.error .notFound, ⟨[carDemo], 2⟩, []) ∧
    delete_car ⟨[carDemo], 2⟩ [bookA] 1 =
      (.error .conflict, ⟨[carDemo], 2⟩, [bookA]) ∧
    delete_car ⟨[carDemo], 2⟩ [] 1 = (.ok (), ⟨[], 2⟩, []) :=
  ⟨(C5_delete_car ⟨[carDemo], 2⟩ [] 9).1 (by decide),
   (C5_delete_car ⟨[carDemo], 2⟩ [bookA] 1).2.1 (by decide) (by decide),
   ((C5_delete_car ⟨[carDemo], 2⟩ [] 1).2.2 (by decide)
     (by decide)).trans (by decide)⟩

/-- C9, counterexample: the claim asserts NotFound for a booking request
naming a nonexistent car even when the dates are invalid.  With an empty
car collection and `end_datetime <= start_datetime`, the `BookingCreate`
schema validation (which runs while parsing the body, before the handler)
rejects the request with a validation error, not NotFound. -/
theorem C9_counterexample :
    (create_booking [] [] 1 ⟨1, "Ann", "ann@example.com", 10, 5⟩).1 =
      .error .validation ∧
    (create_booking [] [] 1 ⟨1, "Ann", "ann@example.com", 10, 5⟩).1 ≠
      .error .notFound := by
  decide

/-- C9 (amended): date validation takes precedence over the car-existence
check — a request with `end_datetime <= start_datetime` fails with a
validation error regardless of the car collection; NotFound for a missing
car is produced exactly when the payload passes schema validation. -/
theorem C9_validation_precedes_notFound (cars : List Car)
    (bookings : List Booking) (nextId : Nat) (r : BookingRequest) :
    (r.end_datetime ≤ r.start_datetime →
      (create_booking cars bookings nextId r).1 = .error .validation) ∧
    (bookingCreateValid r = true → (¬ ∃ c ∈ cars, c.id = r.car_id) →
      (create_booking cars bookings nextId r).1 = .error .notFound) := by
  constructor
  · intro h
    have hv : bookingCreateValid r = false := by
      simp [bookingCreateValid, not_lt.mpr h]
    simp [create_booking, hv]
  · intro hv hnc
    have hf : cars.find? (fun c => c.id == r.car_id) = none := by
      rw [List.find?_eq_none]
      intro c hc
      simp only [beq_iff_eq]
      exact fun he => hnc ⟨c, hc, he⟩
    simp [create_booking, hv, hf]

/-- C9 witness: both branches of the amended claim at concrete inputs. -/
theorem C9_witness :
    (create_booking [] [] 1 ⟨2, "Ann", "ann@example.com", 10, 5⟩).1 =
      .error .validation ∧
    (create_booking [] [] 1 ⟨2, "Ann", "ann@example.com", 5, 10⟩).1 =
      .error .notFound :=
  ⟨(C9_validation_precedes_notFound [] [] 1
      ⟨2, "Ann", "ann@example.com", 10, 5⟩).1 (by decide),
   (C9_validation_precedes_notFound [] [] 1
      ⟨2, "Ann", "ann@example.com", 5, 10⟩).2 (by decide) (by decide)⟩

/-- The seeded dealer fixture. -/
def dealerMain : Dealer := ⟨1, "Oscar Mobility Main", some "Munich, Germany"⟩

/-- C8: updating an existing car with an empty partial payload returns
the car unchanged and leaves the store identical; in general every field
absent from the payload keeps its prior stored value (even if that value
is falsy or empty — the statement quantifies over arbitrary stored
values, including `none` and empty strings). -/
theorem C8_partial_update_frame (dealers : List Dealer) (st : CarState)
    (cid : Nat) (c : Car)
    (hfind : st.cars.find? (fun x => x.id == cid) = some c)
    (hnd : (st.cars.map Car.id).Nodup) :
    update_car dealers st cid {} = (.ok c, st) ∧
    (∀ p car2 st2, update_car dealers st cid p = (.ok car2, st2) →
      (p.brand = none → car2.brand = c.brand) ∧
      (p.model = none → car2.model = c.model) ∧
      (p.year = none → car2.year = c.year) ∧
      (p.color = none → car2.color = c.color) ∧
      (p.daily_price = none → car2.daily_price = c.daily_price) ∧
      (p.vin = none → car2.vin = c.vin) ∧
      (p.status = none → car2.status = c.status) ∧
      (p.dealer_id = none → car2.dealer_id = c.dealer_id)) := by
  have hcid : c.id = cid := by simpa using List.find?_some hfind
  have hcmem : c ∈ st.cars := List.mem_of_find?_eq_some hfind
  constructor
  · have hmap : st.cars.map (fun x => if x.id == cid then c else x) =
        st.cars := by
      have h1 : ∀ x ∈ st.cars, (if x.id == cid then c else x) = id x := by
        intro x hx
        by_cases hxid : (x.id == cid) = true
        · have hx2 : x = c :=
            List.inj_on_of_nodup_map hnd hx hcmem
              (by rw [beq_iff_eq] at hxid; rw [hxid, hcid])
          simp [hxid, hx2]
        · simp [hxid]
      rw [List.map_congr_left h1, List.map_id]
    have hc' : ({ applyUpdate c {} with id := cid } : Car) = c := by
      rw [← hcid]; cases c; rfl
    simp only [update_car, hfind, Option.getD_none, truthyNat, truthyStr,
      Bool.false_and, Bool.false_eq_true, if_false, hc', hmap]
  · intro p car2 st2 h
    simp only [update_car, hfind] at h
    split at h
    · exact absurd h (by simp)
    · split at h
      · exact absurd h (by simp)
      · simp only [Prod.mk.injEq, Except.ok.injEq] at h
        obtain ⟨hcar, -⟩ := h
        subst hcar
        refine ⟨?_, ?_, ?_, ?_, ?_, ?_, ?_, ?_⟩ <;>
          (intro hp; simp [applyUpdate, hp])

/-- C8 witness: empty update on a concrete car is the identity, and a
brand-only update leaves the VIN untouched. -/
theorem C8_partial_update_frame_witness :
    update_car [dealerMain] ⟨[carDemo], 2⟩ 1 {} =
      (.ok carDemo, ⟨[carDemo], 2⟩) ∧
    ({ carDemo with brand := some "Audi" } : Car).vin = carDemo.vin :=
  ⟨(C8_partial_update_frame [dealerMain] ⟨[carDemo], 2⟩ 1 carDemo
      (by decide) (by decide)).1,
   ((C8_partial_update_frame [dealerMain] ⟨[carDemo], 2⟩ 1 carDemo
      (by decide) (by decide)).2
      { brand := some (some "Audi") }
      { carDemo with brand := some "Audi" }
      ⟨[{ carDemo with brand := some "Audi" }], 2⟩
      (by decide)).2.2.2.2.2.1 rfl⟩

/-- Bool-level well-formedness of a stored car's fields, read off the
`Car` model declaration (`app/domain/models.py`): all fields present,
`year > 1900`, `daily_price > 0`, VIN of exactly 17 characters,
`dealer_id > 0`.  (The year's upper bound `current_year + 1` depends on
the wall clock and is not modelled.) -/
def carFieldsOk (c : Car) : Bool :=
  c.brand.isSome && c.model.isSome &&
  (match c.year with | some y => decide (1900 < y) | none => false) &&
  c.color.isSome &&
  (match c.daily_price with | some pr => decide (0 < pr) | none => false) &&
  (match c.vin with | some v => v.length == 17 | none => false) &&
  c.status.isSome &&
  (match c.dealer_id with | some d => decide (0 < d) | none => false)

/-- C10: a field explicitly supplied as null in the update payload is
written through to the stored car (the `exclude_unset` filter keeps
explicitly-set nulls and `model_copy` does not re-validate), so the
stored car can violate the `Car` model's own constraints — concretely,
nulling `carDemo`'s VIN succeeds and the result fails the model's field
constraints. -/
theorem C10_null_write_through (dealers : List Dealer) (st : CarState)
    (cid : Nat) (c : Car) (p : CarUpdatePayload)
    (hfind : st.cars.find? (fun x => x.id == cid) = some c) :
    (∀ car2 st2, update_car dealers st cid p = (.ok car2, st2) →
      (p.brand = some none → car2.brand = none) ∧
      (p.model = some none → car2.model = none) ∧
      (p.year = some none → car2.year = none) ∧
      (p.color = some none → car2.color = none) ∧
      (p.daily_price = some none → car2.daily_price = none) ∧
      (p.vin = some none → car2.vin = none) ∧
      (p.status = some none → car2.status = none) ∧
      (p.dealer_id = some none → car2.dealer_id = none)) ∧
    update_car [dealerMain] ⟨[carDemo], 2⟩ 1 { vin := some none } =
      (.ok { carDemo with vin := none },
       ⟨[{ carDemo with vin := none }], 2⟩) ∧
    carFieldsOk { carDemo with vin := none } = false ∧
    carFieldsOk carDemo = true := by
  refine ⟨?_, by decide, by decide, by decide⟩
  intro car2 st2 h
  simp only [update_car, hfind] at h
  split at h
  · exact absurd h (by simp)
  · split at h
    · exact absurd h (by simp)
    · simp only [Prod.mk.injEq, Except.ok.injEq] at h
      obtain ⟨hcar, -⟩ := h
      subst hcar
      refine ⟨?_, ?_, ?_, ?_, ?_, ?_, ?_, ?_⟩ <;>
        (intro hp; simp [applyUpdate, hp])

/-- C10 witness: nulling the VIN of a concrete valid car stores `None`
and the stored record violates the model's field constraints. -/
theorem C10_null_write_through_witness :
    ({ carDemo with vin := none } : Car).vin = none ∧
    carFieldsOk { carDemo with vin := none } = false :=
  ⟨((C10_null_write_through [dealerMain] ⟨[carDemo], 2⟩ 1 carDemo
      { vin := some none } (by decide)).1
      { carDemo with vin := none }
      ⟨[{ carDemo with vin := none }], 2⟩ (by decide)).2.2.2.2.2.1 rfl,
   (C10_null_write_through [dealerMain] ⟨[carDemo], 2⟩ 1 carDemo
      { vin := some none } (by decide)).2.2.1⟩

lemma get_by_datetime_range_sublist (bookings : List Booking)
    (s e : Option DT) :
    (get_by_datetime_range bookings s e).Sublist bookings := by
  cases s <;> cases e <;>
    first
      | exact List.Sublist.refl _
      | exact List.filter_sublist _

/-- C7, counterexample: the claim quantifies over every car_id, but the
handler tests Python truthiness (`if car_id:`), so a query with
`car_id = 0` ignores the car filter entirely: with one stored booking for
car 1 and a start filter, the query for car 0 returns that booking, which
fails the car-id predicate — not the claimed empty intersection. -/
theorem C7_counterexample :
    get_bookings [bookA] (some 0) (some 14) none = [bookA] ∧
    bookA.car_id ≠ 0 := by decide

/-- C7 (amended): for every NONZERO car_id, the booking-list query with a
car filter and any date filters returns exactly the intersection (by
membership, equivalently by identity since stored ids are distinct) of
the car_id equality filter and the date-range filter; when `car_id = 0`
the car filter is ignored (Python truthiness) and the date-filtered list
over all bookings is returned instead. -/
theorem C7_carAndRange_amended (bookings : List Booking) (cid : Nat)
    (s e : Option DT) (b : Booking) (hcid : cid ≠ 0)
    (hnd : (bookings.map Booking.id).Nodup) :
    b ∈ get_bookings bookings (some cid) s e ↔
      b ∈ get_by_car_id bookings cid ∧
      b ∈ get_by_datetime_range bookings s e := by
  have ht : truthyNat (some cid) = true := by simp [truthyNat, hcid]
  have hdf := get_by_datetime_range_sublist bookings s e
  by_cases hse : (s.isSome || e.isSome) = true
  · simp only [get_bookings, ht, if_true, hse, List.mem_filter,
      List.any_eq_true, beq_iff_eq]
    constructor
    · rintro ⟨hbase, b2, hb2, hid⟩
      have hb2b : b2 = b :=
        List.inj_on_of_nodup_map hnd (hdf.subset hb2)
          (List.mem_filter.mp hbase).1 hid
      exact ⟨hbase, hb2b ▸ hb2⟩
    · rintro ⟨hbase, hb⟩
      exact ⟨hbase, b, hb, rfl⟩
  · have hs : s = none := by cases s <;> simp_all
    have he : e = none := by cases e <;> simp_all
    subst hs; subst he
    simp only [get_bookings, ht, if_true, Option.isSome_none,
      Bool.or_self, Bool.false_eq_true, if_false, get_by_datetime_range]
    exact ⟨fun h => ⟨h, (List.mem_filter.mp h).1⟩, fun h => h.1⟩

/-- C7 witness: for a nonzero car id the returned booking is exactly the
one in both filters. -/
theorem C7_carAndRange_amended_witness :
    bookA ∈ get_bookings [bookA] (some 1) (some 14) none :=
  (C7_carAndRange_amended [bookA] 1 (some 14) none bookA (by decide)
    (by decide)).mpr ⟨by decide, by decide⟩

lemma dictInsertE_keys_nodup (l : List (Nat × EItem)) (k : Nat) (v : EItem)
    (h : (l.map Prod.fst).Nodup) :
    ((dictInsertE l k v).map Prod.fst).Nodup := by
  unfold dictInsertE
  split
  · have heq : (l.map (fun p => if p.1 == k then (k, v) else p)).map
        Prod.fst = l.map Prod.fst := by
      rw [List.map_map]
      refine List.map_congr_left (fun p hp => ?_)
      by_cases hpk : (p.1 == k) = true
      · simp only [Function.comp_apply, hpk, if_true]
        exact (beq_iff_eq.mp hpk).symm
      · have hne : p.1 ≠ k := by simpa using hpk
        simp [Function.comp_apply, hne]
    rw [heq]; exact h
  · rename_i hany
    rw [List.map_append, List.nodup_append]
    refine ⟨h, by simp, fun a ha hb => ?_⟩
    simp only [List.map_cons, List.map_nil, List.mem_singleton] at hb
    subst hb
    rw [List.mem_map] at ha
    obtain ⟨p, hp, hpk⟩ := ha
    exact hany (List.any_eq_true.mpr ⟨p, hp, by simp [hpk]⟩)

lemma EStore.step_keys_nodup (st : EStore) (op : EOp)
    (h : (st.storage.map Prod.fst).Nodup) :
    ((st.step op).storage.map Prod.fst).Nodup := by
  cases op with
  | create item =>
      cases hid : item.id with
      | none =>
          simp only [EStore.step, EStore.create, hid]
          exact dictInsertE_keys_nodup _ _ _ h
      | some i =>
          simp only [EStore.step, EStore.create, hid]
          split
          · exact h
          · exact dictInsertE_keys_nodup _ _ _ h
  | delete k =>
      simp only [EStore.step, EStore.delete]
      split
      · exact ((List.filter_sublist _).map Prod.fst).nodup h
      · exact h

lemma runE_keys_nodup (ops : List EOp) : ∀ st : EStore,
    (st.storage.map Prod.fst).Nodup →
    ((runE st ops).storage.map Prod.fst).Nodup := by
  induction ops with
  | nil => exact fun _ h => h
  | cons op ops ih => exact fun st h => ih _ (EStore.step_keys_nodup st op h)

lemma assignedIds_eq_range (ops : List EOp) : ∀ st : EStore,
    assignedIds st ops =
      List.range' st.nextId (assignedIds st ops).length ∧
    (runE st ops).nextId = st.nextId + (assignedIds st ops).length := by
  induction ops with
  | nil => exact fun _ => ⟨rfl, rfl⟩
  | cons op ops ih =>
      intro st
      cases op with
      | create item =>
          cases hid : item.id with
          | none =>
              have hstep : (st.step (.create item)).nextId = st.nextId + 1 := by
                simp [EStore.step, EStore.create, hid]
              obtain ⟨h1, h2⟩ := ih (st.step (.create item))
              rw [hstep] at h1 h2
              constructor
              · simp only [assignedIds, hid, List.length_cons]
                rw [List.range'_succ]
                exact congrArg _ h1
              · show (runE (st.step (.create item)) ops).nextId = _
                simp only [assignedIds, hid, List.length_cons]
                omega
          | some i =>
              have hstep : (st.step (.create item)).nextId = st.nextId := by
                simp only [EStore.step, EStore.create, hid]
                split <;> rfl
              obtain ⟨h1, h2⟩ := ih (st.step (.create item))
              rw [hstep] at h1 h2
              exact ⟨by simpa only [assignedIds, hid] using h1,
                     by simpa only [assignedIds, hid] using h2⟩
      | delete k =>
          have hstep : (st.step (.delete k)).nextId = st.nextId := by
            simp only [EStore.step, EStore.delete]
            split <;> rfl
          obtain ⟨h1, h2⟩ := ih (st.step (.delete k))
          rw [hstep] at h1 h2
          exact ⟨by simpa only [assignedIds] using h1,
                 by simpa only [assignedIds] using h2⟩

/-- C6: over any operation sequence from a fresh store, the identities
the store assigns form the consecutive run 1, 2, 3, … (monotonically
increasing from 1, each one fresh, never reused); the `_next_id` counter
never decreases across any sequence and is untouched by delete; creating
an item whose preset identity collides with an existing record fails
with the duplicate-key error and leaves the store unchanged; and storage
keys are always unique per collection. -/
theorem C6_entity_store (ops : List EOp) (st : EStore) (item : EItem)
    (i k : Nat) :
    assignedIds initEStore ops =
      List.range' 1 (assignedIds initEStore ops).length ∧
    st.nextId ≤ (runE st ops).nextId ∧
    (item.id = some i → (st.storage.any (fun p => p.1 == i)) = true →
      st.create item = (.error .duplicateKey, st)) ∧
    (st.delete k).2.nextId = st.nextId ∧
    ((runE initEStore ops).storage.map Prod.fst).Nodup := by
  refine ⟨(assignedIds_eq_range ops initEStore).1, ?_, ?_, ?_, ?_⟩
  · rw [(assignedIds_eq_range ops st).2]
    exact Nat.le_add_right _ _
  · intro hid hany
    simp [EStore.create, hid, hany]
  · simp only [EStore.delete]
    split <;> rfl
  · exact runE_keys_nodup ops initEStore (by simp [initEStore])

/-- C6 witness: a preset-id collision on a concrete store raises the
duplicate-key error and leaves the store untouched. -/
theorem C6_entity_store_witness :
    EStore.create ⟨[(3, ⟨some 3, 0⟩)], 7⟩ ⟨some 3, 5⟩ =
      (.error .duplicateKey, ⟨[(3, ⟨some 3, 0⟩)], 7⟩) :=
  (C6_entity_store [] ⟨[(3, ⟨some 3, 0⟩)], 7⟩ ⟨some 3, 5⟩ 3 0).2.2.1
    rfl (by decide)

lemma carRel_symm :
    Symmetric (fun x y : Car => x.id ≠ y.id ∧ VinDistinct x y) :=
  fun _ _ h => ⟨h.1.symm, vinDistinct_symm h.2⟩

lemma mem_eq_of_pairwise_id {cars : List Car} {a c : Car}
    (hpw : cars.Pairwise (fun x y => x.id ≠ y.id ∧ VinDistinct x y))
    (ha : a ∈ cars) (hc : c ∈ cars) (hid : a.id = c.id) : a = c := by
  by_contra hne
  exact (hpw.forall carRel_symm ha hc hne).1 hid

lemma get_by_vin_none {cars : List Car} {v : String}
    (h : get_by_vin cars v = none) : ∀ c ∈ cars, c.vin ≠ some v := by
  rw [get_by_vin, List.find?_eq_none] at h
  intro c hc
  simpa using h c hc

lemma create_car_inv (dealers : List Dealer) (st : CarState)
    (p : CarCreatePayload) (hinv : CarInv st) :
    CarInv (create_car dealers st p).2 := by
  obtain ⟨hpw, hlt⟩ := hinv
  simp only [create_car]
  split
  · exact ⟨hpw, hlt⟩
  split
  · exact ⟨hpw, hlt⟩
  rename_i hvin
  have hvin2 : ∀ c ∈ st.cars, c.vin ≠ some p.vin := by
    refine get_by_vin_none ?_
    cases hg : get_by_vin st.cars p.vin with
    | none => rfl
    | some _ => exact absurd (by simp [hg]) hvin
  have happend : dictInsertCar st.cars
      ⟨st.nextId, some p.brand, some p.model, some p.year, some p.color,
       some p.daily_price, some p.vin, some p.status, some p.dealer_id⟩ =
      st.cars ++
      [⟨st.nextId, some p.brand, some p.model, some p.year, some p.color,
        some p.daily_price, some p.vin, some p.status, some p.dealer_id⟩] := by
    rw [dictInsertCar, if_neg]
    rw [List.any_eq_true]
    rintro ⟨x, hx, hxid⟩
    exact absurd (beq_iff_eq.mp hxid) (Nat.ne_of_lt (hlt x hx))
  constructor
  · simp only [happend]
    rw [List.pairwise_append]
    refine ⟨hpw, by simp, fun a ha b hb => ?_⟩
    rw [List.mem_singleton] at hb
    subst hb
    refine ⟨Nat.ne_of_lt (hlt a ha), fun v hv => ?_⟩
    simp only
    intro hcontra
    rw [Option.some_inj] at hcontra
    exact hvin2 a ha (hcontra ▸ hv)
  · simp only [happend]
    intro c hc
    rcases List.mem_append.mp hc with h | h
    · exact Nat.lt_succ_of_lt (hlt c h)
    · rw [List.mem_singleton] at h
      subst h
      exact Nat.lt_succ_self _

lemma update_car_inv (dealers : List Dealer) (st : CarState) (cid : Nat)
    (p : CarUpdatePayload) (hp : p.Valid) (hinv : CarInv st) :
    CarInv (update_car dealers st cid p).2 := by
  obtain ⟨hpw, hlt⟩ := hinv
  cases hfind : st.cars.find? (fun c => c.id == cid) with
  | none =>
      simp only [update_car, hfind]
      exact ⟨hpw, hlt⟩
  | some existing =>
      simp only [update_car, hfind]
      split
      · exact ⟨hpw, hlt⟩
      split
      · exact ⟨hpw, hlt⟩
      rename_i hdguard hvguard
      have hmem : existing ∈ st.cars := List.mem_of_find?_eq_some hfind
      have heid : existing.id = cid := by simpa using List.find?_some hfind
      have hupdvin :
          ({ applyUpdate existing p with id := cid } : Car).vin =
            p.vin.getD existing.vin := rfl
      have hvin3 : p.vin.getD existing.vin = existing.vin ∨
          p.vin.getD existing.vin = none ∨
          (∃ v, p.vin.getD existing.vin = some v ∧
            ∀ c ∈ st.cars, c.vin ≠ some v) := by
        cases hpv : p.vin with
        | none => exact Or.inl rfl
        | some vo =>
            cases vo with
            | none => exact Or.inr (Or.inl rfl)
            | some v =>
                by_cases hsame : some v = existing.vin
                · exact Or.inl (by simp [hsame])
                · refine Or.inr (Or.inr ⟨v, by simp, ?_⟩)
                  rw [hpv] at hvguard
                  have hv17 : v.length = 17 := hp.1 v hpv
                  have htr : truthyStr ((some (some v) : Option (Option String)).getD none) = true := by
                    simp only [Option.getD_some, truthyStr]
                    rw [Bool.not_eq_true', Bool.eq_false_iff]
                    intro htrue
                    have he := (String.isEmpty_iff v).mp htrue
                    rw [he] at hv17
                    simp at hv17
                  have hbne : (((some (some v) : Option (Option String)).getD none) !=
                      existing.vin) = true := by
                    simp only [Option.getD_some]
                    exact bne_iff_ne.mpr hsame
                  rw [Bool.not_eq_true, htr, hbne] at hvguard
                  simp only [Bool.true_and, Option.getD_some] at hvguard
                  exact get_by_vin_none
                    (Option.not_isSome_iff_eq_none.mp (by simp [hvguard]))
      have hfid : ∀ x : Car,
          ((if x.id == cid then
              ({ applyUpdate existing p with id := cid } : Car)
            else x) : Car).id = x.id := by
        intro x
        by_cases hx : (x.id == cid) = true
        · simp only [hx, if_true]
          exact (beq_iff_eq.mp hx).symm
        · simp [hx]
      constructor
      · rw [List.pairwise_map]
        refine hpw.imp_of_mem ?_
        intro a b ha hb hab
        obtain ⟨hid, hvd⟩ := hab
        refine ⟨by rw [hfid, hfid]; exact hid, ?_⟩
        by_cases hxa : (a.id == cid) = true <;>
          by_cases hxb : (b.id == cid) = true
        · exact absurd (by rw [beq_iff_eq.mp hxa, beq_iff_eq.mp hxb]) hid
        · have hae : a = existing :=
            mem_eq_of_pairwise_id hpw ha hmem
              (by rw [beq_iff_eq.mp hxa, ← heid])
          subst hae
          rw [if_pos hxa, if_neg hxb]
          intro v hv
          rcases hvin3 with h1 | h1 | ⟨w, hw, hall⟩
          · rw [hupdvin, h1] at hv
            exact hvd v hv
          · rw [hupdvin, h1] at hv
            exact absurd hv (by simp)
          · rw [hupdvin, hw, Option.some_inj] at hv
            exact hv ▸ hall b hb
        · have hbe : b = existing :=
            mem_eq_of_pairwise_id hpw hb hmem
              (by rw [beq_iff_eq.mp hxb, ← heid])
          subst hbe
          rw [if_neg hxa, if_pos hxb]
          intro v hav
          rw [hupdvin]
          rcases hvin3 with h1 | h1 | ⟨w, hw, hall⟩
          · rw [h1]
            exact hvd v hav
          · rw [h1]
            simp
          · rw [hw]
            intro hcontra
            rw [Option.some_inj] at hcontra
            exact hall a ha (by rw [hcontra]; exact hav)
        · rw [if_neg hxa, if_neg hxb]
          exact hvd
      · intro c hc
        rw [List.mem_map] at hc
        obtain ⟨x, hx, hfx⟩ := hc
        rw [← hfx, hfid]
        exact hlt x hx

lemma runCarOps_inv (dealers : List Dealer) (ops : List CarOp) :
    ∀ st : CarState, (∀ op ∈ ops, op.Valid) → CarInv st →
      CarInv (runCarOps dealers st ops) := by
  induction ops with
  | nil => exact fun _ _ h => h
  | cons op ops ih =>
      intro st hv h
      have hv' : ∀ o ∈ ops, o.Valid :=
        fun o ho => hv o (List.mem_cons_of_mem _ ho)
      cases op with
      | create p =>
          exact ih _ hv' (create_car_inv dealers st p h)
      | update cid p =>
          exact ih _ hv'
            (update_car_inv dealers st cid p
              (hv _ (List.mem_cons_self _ _)) h)

/-- The `CarCreate` payload matching `carDemo`. -/
def payloadDemo : CarCreatePayload :=
  ⟨"VW", "Golf", 2020, "blue", 40, "WVWZZZ1JZXW000001",
   CarStatus.available, 1⟩

/-- C2: VIN uniqueness is an invariant of the public car interface.
After any sequence of create and update operations with schema-valid
payloads, starting from the empty store, no two stored cars hold the
same VIN value (a VIN nulled by an explicit-null update is the absence
of a VIN, not a shared VIN).  Moreover create fails with Conflict when
the supplied VIN already belongs to a stored car, and update fails with
Conflict when a truthy VIN different from the car's own is held by any
stored car (given the dealer guard does not fire first). -/
theorem C2_vin_uniqueness (dealers : List Dealer) (ops : List CarOp)
    (hops : ∀ op ∈ ops, op.Valid) (st : CarState)
    (p : CarCreatePayload) (cid : Nat) (q : CarUpdatePayload)
    (c c2 : Car) :
    (runCarOps dealers initCarState ops).cars.Pairwise VinDistinct ∧
    ((dealers.find? (fun d => d.id == p.dealer_id)).isNone = false →
      get_by_vin st.cars p.vin = some c →
      create_car dealers st p = (.error .conflict, st)) ∧
    (st.cars.find? (fun x => x.id == cid) = some c2 →
      (truthyNat (q.dealer_id.getD none) &&
        (q.dealer_id.getD none != c2.dealer_id) &&
        (dealers.find? (fun d => some d.id == q.dealer_id.getD none)).isNone)
        = false →
      truthyStr (q.vin.getD none) = true →
      (q.vin.getD none != c2.vin) = true →
      get_by_vin st.cars ((q.vin.getD none).getD "") = some c →
      update_car dealers st cid q = (.error .conflict, st)) := by
  refine ⟨?_, ?_, ?_⟩
  · have hinv := runCarOps_inv dealers ops initCarState hops
      ⟨List.Pairwise.nil, by simp [initCarState]⟩
    exact hinv.1.imp (fun h => h.2)
  · intro hdeal hvin
    simp only [create_car, hvin]
    rw [if_neg (by rw [hdeal]; simp), if_pos (by simp)]
  · intro hfind hdg hvt hvne hfound
    simp only [update_car, hfind]
    rw [if_neg (by rw [hdg]; simp), if_pos (by rw [hvt, hvne, hfound]; simp)]

/-- C2 witness: one valid create preserves pairwise-distinct VINs; a
duplicate-VIN create and a duplicate-VIN update are both rejected with
Conflict on concrete stores. -/
theorem C2_vin_uniqueness_witness :
    (runCarOps [dealerMain] initCarState
      [CarOp.create payloadDemo]).cars.Pairwise VinDistinct ∧
    create_car [dealerMain] ⟨[carDemo], 2⟩ payloadDemo =
      (.error .conflict, ⟨[carDemo], 2⟩) ∧
    update_car [dealerMain] ⟨[carDemo, carMaint], 3⟩ 1
      { vin := some (some "WVWZZZ1JZXW000002") } =
      (.error .conflict, ⟨[carDemo, carMaint], 3⟩) :=
  have hops : ∀ op ∈ [CarOp.create payloadDemo], op.Valid := by
    intro op hop
    rw [List.mem_singleton] at hop
    subst hop
    exact ⟨by decide, by decide⟩
  ⟨(C2_vin_uniqueness [dealerMain] [CarOp.create payloadDemo] hops
      ⟨[carDemo], 2⟩ payloadDemo 1 {} carDemo carDemo).1,
   (C2_vin_uniqueness [dealerMain] [CarOp.create payloadDemo] hops
      ⟨[carDemo], 2⟩ payloadDemo 1 {} carDemo carDemo).2.1 (by decide)
      (by decide),
   (C2_vin_uniqueness [dealerMain] [CarOp.create payloadDemo] hops
      ⟨[carDemo, carMaint], 3⟩ payloadDemo 1
      { vin := some (some "WVWZZZ1JZXW000002") } carMaint carDemo).2.2
      (by decide) (by decide) (by decide) (by decide) (by decide)⟩

end CarBooking
